import Mathlib

/-!
Verification development for the Solana volume-bot sources
(`src/services/BackupManager.ts` — containing `BackupManager` and `WalletManager` —,
`src/services/TradingBot.ts`, `src/services/LicenseManager.ts`).

The TypeScript code is shallowly embedded: JavaScript numbers used as SOL
amounts are modelled as exact rationals (`Rat`), millisecond timestamps as
`Int`, fallible calls as `Except`/`Option`, and every side effect (file store
writes, network calls, background scheduling) as explicit state passing plus
an event trace.  External collaborators (the Solana RPC connection, the
Jupiter swap venue, `crypto.createHmac`, `bs58`/`Keypair` decoding,
`JSON.parse` of the license payload) are modelled as oracle parameters,
since their internals are outside this repository.
-/

namespace VolumeBot

/-! ## JavaScript array helpers

`Array.prototype.filter` with an index-aware callback, used by
`BackupManager.getAllWalletsFromBackups` via the idiom
`array.filter((wallet, index, array) => array.findIndex(w => w.publicKey === wallet.publicKey) === index)`.
-/

/-- Model of `Array.prototype.filter` when the callback consumes the element
index: `filterWithIdx p l i` filters `l` whose first element sits at index `i`. -/
def filterWithIdx (p : α → Nat → Bool) : List α → Nat → List α
  | [], _ => []
  | x :: xs, i =>
    if p x i then x :: filterWithIdx p xs (i + 1) else filterWithIdx p xs (i + 1)

/-- Model of `Array.prototype.map` with an index-aware callback. -/
def mapWithIdx (f : α → Nat → β) : List α → Nat → List β
  | [], _ => []
  | x :: xs, i => f x i :: mapWithIdx f xs (i + 1)

/-- Embedding of the deduplication idiom from `getAllWalletsFromBackups`:
`arr.filter((wallet, index, array) => array.findIndex(w => w.publicKey === wallet.publicKey) === index)`,
generalized over the key projection. -/
def jsUniqueBy (key : α → String) (l : List α) : List α :=
  filterWithIdx (fun w i => (l.findIdx fun v => key v == key w) == i) l 0

/-- Keep-the-first-occurrence-per-key recursion; proof-side characterization
of `jsUniqueBy` (the bridge is `jsUniqueBy_eq_keepFirstBy`). -/
def keepFirstBy (key : α → String) : List α → List α
  | [] => []
  | x :: xs => x :: keepFirstBy key (xs.filter fun v => !(key v == key x))
termination_by l => l.length
decreasing_by
  simp only [List.length_cons]
  exact Nat.lt_succ_of_le (List.length_filter_le _ _)

theorem filterWithIdx_shift (p : α → Nat → Bool) (l : List α) (n : Nat) :
    filterWithIdx p l (n + 1) = filterWithIdx (fun a i => p a (i + 1)) l n := by
  induction l generalizing n with
  | nil => rfl
  | cons x xs ih => simp only [filterWithIdx, ih]

theorem filterWithIdx_congr {p q : α → Nat → Bool} (l : List α) (n : Nat)
    (h : ∀ a i, p a i = q a i) : filterWithIdx p l n = filterWithIdx q l n := by
  induction l generalizing n with
  | nil => rfl
  | cons x xs ih => simp only [filterWithIdx, h, ih]

theorem natSuccBeq (m n : Nat) : ((m + 1 : Nat) == n + 1) = (m == n) := by
  by_cases h : m = n <;> simp [h]

/-- Bridge between the source's `filter`/`findIndex` dedup and the
first-occurrence recursion, generalized over a key-determined guard `q`. -/
theorem filterWithIdx_findIdx_eq_keepFirstBy (key : α → String) (q : α → Bool)
    (hq : ∀ x y, key x = key y → q x = q y) (l : List α) :
    filterWithIdx (fun w i => q w && ((l.findIdx fun v => key v == key w) == i)) l 0
      = keepFirstBy key (l.filter q) := by
  induction l generalizing q with
  | nil => simp [filterWithIdx, keepFirstBy]
  | cons y ys ih =>
    have hhead : (((y :: ys).findIdx fun v => key v == key y) == 0) = true := by
      simp [List.findIdx_cons]
    have hshift :
        filterWithIdx
          (fun w i => q w && (((y :: ys).findIdx fun v => key v == key w) == i)) ys 1
          = filterWithIdx
            (fun w i =>
              (q w && !(key w == key y))
                && ((ys.findIdx fun v => key v == key w) == i)) ys 0 := by
      rw [filterWithIdx_shift]
      refine filterWithIdx_congr ys 0 ?_
      intro a i
      by_cases hk : key y = key a
      · have h1 : (key y == key a) = true := by simp [hk]
        have h2 : (key a == key y) = true := by simp [hk.symm]
        simp [List.findIdx_cons, h1, h2]
      · have h1 : (key y == key a) = false := by simp [hk]
        have h2 : (key a == key y) = false := by
          have hne : ¬ key a = key y := fun hcontra => hk hcontra.symm
          simp [hne]
        simp only [List.findIdx_cons, h1, h2, cond_false, Bool.not_false, Bool.and_true,
          natSuccBeq]
    have hq2 : ∀ x y', key x = key y' →
        (q x && !(key x == key y)) = (q y' && !(key y' == key y)) := by
      intro x y' hkey
      rw [hq x y' hkey, hkey]
    by_cases hy : q y = true
    · have hPy : (q y && (((y :: ys).findIdx fun v => key v == key y) == 0)) = true := by
        rw [hhead, hy]; rfl
      have hfil : (y :: ys).filter q = y :: ys.filter q := by simp [hy]
      rw [hfil, keepFirstBy]
      simp only [filterWithIdx]
      rw [if_pos hPy, hshift, ih _ hq2, List.filter_filter]
      refine congrArg (fun t => y :: t) (congrArg (keepFirstBy key) (List.filter_congr ?_))
      intro x _
      exact Bool.and_comm _ _
    · have hyf : q y = false := by simpa using hy
      have hPy : (q y && (((y :: ys).findIdx fun v => key v == key y) == 0)) = false := by
        rw [hhead, hyf]; rfl
      have hfil : (y :: ys).filter q = ys.filter q := by simp [hyf]
      rw [hfil]
      simp only [filterWithIdx]
      rw [if_neg (by simp [hPy]), hshift, ih _ hq2]
      refine congrArg (keepFirstBy key) (List.filter_congr ?_)
      intro x _
      by_cases hx : q x = true
      · have hkxy : ¬ key x = key y := by
          intro hk
          have hcontra := hq x y hk
          rw [hx, hyf] at hcontra
          exact Bool.noConfusion hcontra
        simp [hx, hkxy]
      · have hxf : q x = false := by simpa using hx
        simp [hxf]

/-- The source's `filter`/`findIndex` dedup keeps exactly the first occurrence
of each key, in order. -/
theorem jsUniqueBy_eq_keepFirstBy (key : α → String) (l : List α) :
    jsUniqueBy key l = keepFirstBy key l := by
  have h := filterWithIdx_findIdx_eq_keepFirstBy key (fun _ => true)
    (fun _ _ _ => rfl) l
  simpa [jsUniqueBy, List.filter_true] using h

theorem mem_of_mem_keepFirstBy (key : α → String) {l : List α} {x : α}
    (h : x ∈ keepFirstBy key l) : x ∈ l := by
  induction l using keepFirstBy.induct key with
  | case1 => simp [keepFirstBy] at h
  | case2 y ys ih =>
    rw [keepFirstBy] at h
    rcases List.mem_cons.mp h with h1 | h2
    · simp [h1]
    · exact List.mem_cons_of_mem _ (List.mem_of_mem_filter (ih h2))

theorem map_key_keepFirstBy_nodup (key : α → String) (l : List α) :
    ((keepFirstBy key l).map key).Nodup := by
  induction l using keepFirstBy.induct key with
  | case1 => simp [keepFirstBy]
  | case2 y ys ih =>
    rw [keepFirstBy]
    simp only [List.map_cons, List.nodup_cons]
    refine ⟨?_, ih⟩
    intro hmem
    rcases List.mem_map.mp hmem with ⟨v, hv, hkey⟩
    have hfil := List.of_mem_filter (mem_of_mem_keepFirstBy key hv)
    rw [hkey] at hfil
    simp at hfil

theorem key_mem_keepFirstBy (key : α → String) {l : List α} {x : α}
    (h : x ∈ l) : key x ∈ (keepFirstBy key l).map key := by
  induction l using keepFirstBy.induct key with
  | case1 => simp at h
  | case2 y ys ih =>
    rw [keepFirstBy]
    rcases List.mem_cons.mp h with h1 | h2
    · simp [h1]
    · by_cases hk : key x = key y
      · simp [hk]
      · have hmem : x ∈ ys.filter fun v => !(key v == key y) :=
          List.mem_filter.mpr ⟨h2, by simp [hk]⟩
        simp only [List.map_cons, List.mem_cons]
        exact Or.inr (ih hmem)

theorem find?_keepFirstBy_mem (key : α → String) {l : List α} {k : String} {x : α}
    (h : l.find? (fun v => key v == k) = some x) : x ∈ keepFirstBy key l := by
  induction l using keepFirstBy.induct key with
  | case1 => simp at h
  | case2 y ys ih =>
    rw [keepFirstBy]
    by_cases hy : (key y == k) = true
    · rw [@List.find?_cons_of_pos α (fun v => key v == k) y ys hy] at h
      simp only [Option.some.injEq] at h
      simp [h]
    · rw [@List.find?_cons_of_neg α (fun v => key v == k) y ys hy] at h
      have hkyk : ¬ key y = k := by simpa using hy
      have hfind : (ys.filter fun v => !(key v == key y)).find? (fun v => key v == k)
          = some x := by
        rw [List.find?_filter]
        have hdec : (fun a => decide ((!(key a == key y)) = true ∧ (key a == k) = true))
            = (fun a : α => key a == k) := by
          funext a
          by_cases ha : key a = k
          · have h1 : (key a == k) = true := by simp [ha]
            have h2 : (key a == key y) = false := by
              have hne : ¬ key a = key y := fun hcontra => hkyk (hcontra.symm.trans ha)
              simp [hne]
            simp [h1, h2]
          · have h1 : (key a == k) = false := by simp [ha]
            simp [h1]
        rw [hdec]
        exact h
      exact List.mem_cons_of_mem _ (ih hfind)

/-! ## BackupManager data model

Mirrors the `WalletBackup` / `BackupFile` interfaces of
`src/services/BackupManager.ts`.  `Raw…` structures model the JSON actually
stored on disk (`rawBackup: any` in `normalizeBackupFormat`), where fields may
be absent; millisecond timestamps are `Int` and JavaScript truthiness of a
number is `≠ 0`.
-/

structure MainWallet where
  publicKey : String
  privateKey : String
  createdAt : Int
deriving DecidableEq, Repr

structure SubWallet where
  publicKey : String
  privateKey : String
  createdAt : Int
  index : Nat
deriving DecidableEq, Repr

structure BackupMetadata where
  version : String
  createdBy : String
  totalWallets : Nat
deriving DecidableEq, Repr

structure WalletBackup where
  timestamp : Int
  mainWallet : Option MainWallet
  subWallets : List SubWallet
  metadata : BackupMetadata
deriving DecidableEq, Repr

structure RawMainWallet where
  publicKey : String
  privateKey : String
  createdAt : Option Int
deriving DecidableEq, Repr

structure RawSubWallet where
  publicKey : String
  privateKey : String
  createdAt : Option Int
  index : Option Nat
deriving DecidableEq, Repr

structure RawBackup where
  timestamp : Option Int
  createdAt : Option Int
  mainWallet : Option RawMainWallet
  subWallets : List RawSubWallet
  metadata : Option BackupMetadata
  version : Option String
deriving DecidableEq, Repr

/-- JavaScript truthiness of a possibly-absent number: `undefined` and `0`
are falsy. -/
def truthyInt : Option Int → Bool
  | none => false
  | some t => t != 0

/-- JavaScript `a || b` for a possibly-absent string (`''` is falsy),
modelling `rawBackup.version || '1.0.0'`. -/
def jsStrOr (a : Option String) (b : String) : String :=
  match a with
  | none => b
  | some v => if v == "" then b else v

/-- The hard-coded placeholder main-wallet public key of
`normalizeBackupFormat` (line 134 of `BackupManager.ts`). -/
def placeholderPublicKey : String := "9q36V4YA4wNbywXzttshrKfAursbwVUv5F4zHZ1DbTFs"

/-- The hard-coded placeholder main-wallet private key. -/
def placeholderPrivateKey : String := "REPLACE_WITH_YOUR_MAIN_WALLET_PRIVATE_KEY_HERE"

/-- The placeholder identity injected by `normalizeBackupFormat` when a stored
file has no main wallet (lines 130-138 of `BackupManager.ts`). -/
def placeholderMainWallet (ts : Int) : MainWallet :=
  { publicKey := placeholderPublicKey, privateKey := placeholderPrivateKey,
    createdAt := ts }

/-- Embeds `const timestamp = rawBackup.timestamp || rawBackup.createdAt ?
new Date(rawBackup.createdAt || rawBackup.timestamp).getTime() : Date.now();`
(`?:` binds after `||`, and `new Date(ms).getTime() = ms`). -/
def rawTimestampOf (raw : RawBackup) (now : Int) : Int :=
  if truthyInt raw.timestamp || truthyInt raw.createdAt then
    (if truthyInt raw.createdAt then raw.createdAt.getD 0 else raw.timestamp.getD 0)
  else now

/-- The already-new-format branch of `normalizeBackupFormat` returns the raw
object unchanged (a TypeScript cast).  Files in that format written by this
program always carry `createdAt`, so the `getD 0` default is never exercised
on program-written stores. -/
def mainWalletAsIs (m : RawMainWallet) : MainWallet :=
  { publicKey := m.publicKey, privateKey := m.privateKey,
    createdAt := m.createdAt.getD 0 }

/-- Cast of a sub-wallet in the already-new-format branch; program-written
files always carry `createdAt` and `index`. -/
def subWalletAsIs (w : RawSubWallet) : SubWallet :=
  { publicKey := w.publicKey, privateKey := w.privateKey,
    createdAt := w.createdAt.getD 0, index := w.index.getD 0 }

/-- Embeds the sub-wallet mapping of `normalizeBackupFormat` (lines 141-146):
`createdAt: wallet.createdAt ? … : timestamp` (truthiness) and
`index: wallet.index !== undefined ? wallet.index : index` (definedness). -/
def normalizeSubWallet (ts : Int) (w : RawSubWallet) (i : Nat) : SubWallet :=
  { publicKey := w.publicKey, privateKey := w.privateKey,
    createdAt := if truthyInt w.createdAt then w.createdAt.getD 0 else ts,
    index := w.index.getD i }

/-- Embeds `BackupManager.normalizeBackupFormat` (lines 113-158).  The
`filename` argument of the source is only used for log messages and is
dropped.  A `mainWallet` value that is truthy yet not an object cannot be
written by this program and is not represented; `null` is modelled as
`none` (it is falsy, like `undefined`, in both source branches). -/
def normalizeBackupFormat (raw : RawBackup) (now : Int) : WalletBackup :=
  if raw.metadata.isSome && truthyInt raw.timestamp && raw.mainWallet.isSome then
    { timestamp := raw.timestamp.getD 0,
      mainWallet := raw.mainWallet.map mainWalletAsIs,
      subWallets := raw.subWallets.map subWalletAsIs,
      metadata := raw.metadata.getD { version := "1.0.0", createdBy := "", totalWallets := 0 } }
  else
    let ts := rawTimestampOf raw now
    let mainWallet : Option MainWallet :=
      match raw.mainWallet with
      | some m =>
        some { publicKey := m.publicKey, privateKey := m.privateKey,
               createdAt := if truthyInt m.createdAt then m.createdAt.getD 0 else ts }
      | none => some (placeholderMainWallet ts)
    let subWallets := mapWithIdx (fun w i => normalizeSubWallet ts w i) raw.subWallets 0
    let md : BackupMetadata :=
      { version := jsStrOr raw.version ("1.0.0"),
        createdBy := "solana-volume-bot",
        totalWallets := (if mainWallet.isSome then 1 else 0) + subWallets.length }
    { timestamp := ts,
      mainWallet := mainWallet,
      subWallets := subWallets,
      metadata := md }

/-- One stored backup file: name plus parsed JSON.  The store models the
`wallet-backups` directory restricted to the files `getBackupFiles` accepts
(name matches `wallets-*.json` and `JSON.parse` succeeds; unparseable files
are skipped by the source and therefore not represented). -/
structure StoredFile where
  filename : String
  raw : RawBackup
deriving DecidableEq, Repr

abbrev BackupStore := List StoredFile

/-- Mirror of the `BackupFile` interface: `timestamp` is copied from the
normalized backup (`timestamp: backup.timestamp`). -/
structure BackupFileEntry where
  filename : String
  timestamp : Int
  data : WalletBackup
deriving DecidableEq, Repr

/-- Comparator of `getBackupFiles`: `sort((a, b) => b.timestamp - a.timestamp)`,
i.e. `a` precedes `b` when `b.timestamp ≤ a.timestamp` (newest first). -/
def newestFirst (a b : BackupFileEntry) : Prop :=
  b.timestamp ≤ a.timestamp

instance : DecidableRel newestFirst := fun a b => Int.decLe b.timestamp a.timestamp

instance : IsTotal BackupFileEntry newestFirst :=
  ⟨fun a b => le_total b.timestamp a.timestamp⟩

instance : IsTrans BackupFileEntry newestFirst :=
  ⟨fun _ _ _ hab hbc => le_trans hbc hab⟩

/-- `Array.prototype.sort` is required to be stable; it is modelled by a
stable structural sort with the same comparator. -/
def sortBackupFiles (entries : List BackupFileEntry) : List BackupFileEntry :=
  List.insertionSort newestFirst entries

/-- One stored file read and normalized into a `BackupFile` entry
(`timestamp: backup.timestamp`). -/
def parsedEntryOf (sf : StoredFile) (now : Int) : BackupFileEntry :=
  { filename := sf.filename,
    timestamp := (normalizeBackupFormat sf.raw now).timestamp,
    data := normalizeBackupFormat sf.raw now }

/-- Reading and normalizing every stored file (the loop of `getBackupFiles`). -/
def parsedEntries (store : BackupStore) (now : Int) : List BackupFileEntry :=
  store.map fun f => parsedEntryOf f now

/-- Embeds `BackupManager.getBackupFiles` (lines 77-111). -/
def getBackupFiles (store : BackupStore) (now : Int) : List BackupFileEntry :=
  sortBackupFiles (parsedEntries store now)

/-- A main wallet as returned by `getAllWalletsFromBackups`:
`{...mainWallet, backupFile, timestamp}`. -/
structure TaggedMainWallet where
  publicKey : String
  privateKey : String
  createdAt : Int
  backupFile : String
  timestamp : Int
deriving DecidableEq, Repr

/-- A sub-wallet as returned by `getAllWalletsFromBackups`:
`{...subWallet, backupFile, timestamp}`. -/
structure TaggedSubWallet where
  publicKey : String
  privateKey : String
  createdAt : Int
  index : Nat
  backupFile : String
  timestamp : Int
deriving DecidableEq, Repr

def tagMainWallet (f : BackupFileEntry) (m : MainWallet) : TaggedMainWallet :=
  { publicKey := m.publicKey, privateKey := m.privateKey, createdAt := m.createdAt,
    backupFile := f.filename, timestamp := f.timestamp }

def tagSubWallet (f : BackupFileEntry) (w : SubWallet) : TaggedSubWallet :=
  { publicKey := w.publicKey, privateKey := w.privateKey, createdAt := w.createdAt,
    index := w.index, backupFile := f.filename, timestamp := f.timestamp }

/-- The push loop of `getAllWalletsFromBackups` for main wallets:
`if (backupFile.data.mainWallet) mainWallets.push({...})`. -/
def collectMainWallets (entries : List BackupFileEntry) : List TaggedMainWallet :=
  entries.filterMap fun f => f.data.mainWallet.map (tagMainWallet f)

/-- The push loop of `getAllWalletsFromBackups` for sub-wallets. -/
def collectSubWallets (entries : List BackupFileEntry) : List TaggedSubWallet :=
  (entries.map fun f => f.data.subWallets.map (tagSubWallet f)).flatten

/-- Reconciliation of main wallets: sort newest-first, flatten, then the
`filter`/`findIndex` dedup by public key. -/
def reconcileMainWallets (entries : List BackupFileEntry) : List TaggedMainWallet :=
  jsUniqueBy (fun m => m.publicKey) (collectMainWallets (sortBackupFiles entries))

/-- Reconciliation of sub-wallets: sort newest-first, flatten, then the
`filter`/`findIndex` dedup by public key. -/
def reconcileSubWallets (entries : List BackupFileEntry) : List TaggedSubWallet :=
  jsUniqueBy (fun w => w.publicKey) (collectSubWallets (sortBackupFiles entries))

structure ReconciledWallets where
  mainWallets : List TaggedMainWallet
  subWallets : List TaggedSubWallet
deriving DecidableEq, Repr

/-- Embeds `BackupManager.getAllWalletsFromBackups` (lines 160-199). -/
def getAllWalletsFromBackups (store : BackupStore) (now : Int) : ReconciledWallets :=
  { mainWallets := reconcileMainWallets (parsedEntries store now),
    subWallets := reconcileSubWallets (parsedEntries store now) }

def rawOfMainWallet (m : MainWallet) : RawMainWallet :=
  { publicKey := m.publicKey, privateKey := m.privateKey, createdAt := some m.createdAt }

def rawOfSubWallet (w : SubWallet) : RawSubWallet :=
  { publicKey := w.publicKey, privateKey := w.privateKey,
    createdAt := some w.createdAt, index := some w.index }

/-- The metadata block built by `createBackup` (lines 55-59). -/
def backupMetadataOf (mainW : Option MainWallet) (subs : List SubWallet) :
    BackupMetadata :=
  { version := "1.0.0", createdBy := "solana-volume-bot",
    totalWallets := (if mainW.isSome then 1 else 0) + subs.length }

/-- The backup record built by `createBackup` (lines 51-60), as serialized:
absent `mainWallet` stays absent in the JSON. -/
def backupRawOf (now : Int) (mainW : Option MainWallet) (subs : List SubWallet) :
    RawBackup :=
  { timestamp := some now,
    createdAt := none,
    mainWallet := mainW.map rawOfMainWallet,
    subWallets := subs.map rawOfSubWallet,
    metadata := some (backupMetadataOf mainW subs),
    version := none }

/-- Embeds `BackupManager.createBackup` (lines 50-75): builds the backup
record with `timestamp = Date.now()` and metadata, then writes
`wallets-<timestamp>.json`.  `writeOk` models whether `fs.writeFile`
succeeds; on failure the method throws and no file is added (the durable
append is atomic-on-success). -/
def createBackup (store : BackupStore) (now : Int) (writeOk : Bool)
    (mainW : Option MainWallet) (subs : List SubWallet) :
    Except String String × BackupStore :=
  let backup := backupRawOf now mainW subs
  let filename := "wallets-" ++ toString now ++ ".json"
  if writeOk then
    (Except.ok filename, store ++ [{ filename := filename, raw := backup }])
  else
    (Except.error ("Failed to create wallet backup"), store)

/-- Embeds `BackupManager.updateBackupWithNewWallets` (lines 206-215):
`createBackup({ subWallets: [...existingWallets, ...newWallets] })` — no
`mainWallet` field is written. -/
def updateBackupWithNewWallets (store : BackupStore) (now : Int) (writeOk : Bool)
    (existingWallets newWallets : List SubWallet) : Except String String × BackupStore :=
  createBackup store now writeOk none (existingWallets ++ newWallets)

/-! ## Reconciliation lemmas (towards C1) -/

theorem keys_keepFirstBy_toFinset (key : α → String) (l : List α) :
    ((keepFirstBy key l).map key).toFinset = (l.map key).toFinset := by
  ext z
  simp only [List.mem_toFinset, List.mem_map]
  constructor
  · rintro ⟨x, hx, rfl⟩
    exact ⟨x, mem_of_mem_keepFirstBy key hx, rfl⟩
  · rintro ⟨x, hx, rfl⟩
    have := key_mem_keepFirstBy key hx
    rcases List.mem_map.mp this with ⟨v, hv, hkey⟩
    exact ⟨v, hv, hkey⟩

theorem length_keepFirstBy (key : α → String) (l : List α) :
    (keepFirstBy key l).length = (l.map key).toFinset.card := by
  rw [← keys_keepFirstBy_toFinset key l,
    List.toFinset_card_of_nodup (map_key_keepFirstBy_nodup key l), List.length_map]

theorem find?_of_nodup_key_mem (key : α → String) {l : List α} {x : α} {k : String}
    (hnd : (l.map key).Nodup) (hx : x ∈ l) (hk : key x = k) :
    l.find? (fun v => key v == k) = some x := by
  induction l with
  | nil => simp at hx
  | cons y ys ih =>
    simp only [List.map_cons, List.nodup_cons] at hnd
    rcases List.mem_cons.mp hx with h1 | h2
    · subst h1
      exact @List.find?_cons_of_pos α (fun v => key v == k) x ys (by simp [hk])
    · have hky : ¬ (key y == k) = true := by
        intro hcontra
        have hyk : key y = k := by simpa using hcontra
        have hmem : k ∈ ys.map key := List.mem_map.mpr ⟨x, h2, hk⟩
        rw [← hyk] at hmem
        exact hnd.1 hmem
      rw [@List.find?_cons_of_neg α (fun v => key v == k) y ys hky]
      exact ih hnd.2 h2

/-- In a newest-first list of snapshot entries with pairwise distinct
timestamps, the first flattened occurrence of a public key comes from the
entry with the greatest timestamp among those containing the key. -/
theorem find?_collectSubWallets (fs : List BackupFileEntry) (f : BackupFileEntry)
    (w : SubWallet) (k : String)
    (hsorted : List.Pairwise (fun a b => b.timestamp ≤ a.timestamp) fs)
    (hts : (fs.map fun e => e.timestamp).Nodup)
    (hf : f ∈ fs) (hw : w ∈ f.data.subWallets) (hk : w.publicKey = k)
    (hmax : ∀ g ∈ fs, (∃ v ∈ g.data.subWallets, v.publicKey = k) →
      g.timestamp ≤ f.timestamp)
    (hkeys : ∀ g ∈ fs, ((g.data.subWallets.map fun v => v.publicKey).Nodup)) :
    (collectSubWallets fs).find? (fun v => v.publicKey == k) = some (tagSubWallet f w) := by
  induction fs with
  | nil => simp at hf
  | cons g gs ih =>
    have hcons : collectSubWallets (g :: gs)
        = (g.data.subWallets.map (tagSubWallet g)) ++ collectSubWallets gs := by
      simp [collectSubWallets]
    rw [hcons, List.find?_append]
    rcases List.mem_cons.mp hf with rfl | hfin
    · have hseg : (f.data.subWallets.map (tagSubWallet f)).find?
          (fun v => v.publicKey == k) = some (tagSubWallet f w) := by
        rw [List.find?_map]
        have hcomp : ((fun v : TaggedSubWallet => v.publicKey == k) ∘ tagSubWallet f)
            = (fun v : SubWallet => v.publicKey == k) := by
          funext v
          rfl
        rw [hcomp, find?_of_nodup_key_mem (fun v => v.publicKey)
          (hkeys f (List.mem_cons_self f gs)) hw hk]
        rfl
      rw [hseg]
      rfl
    · have hgnone : (g.data.subWallets.map (tagSubWallet g)).find?
          (fun v => v.publicKey == k) = none := by
        rw [List.find?_eq_none]
        intro x hx
        rcases List.mem_map.mp hx with ⟨u, hu, rfl⟩
        simp only [tagSubWallet]
        intro hcontra
        have huk : u.publicKey = k := by simpa using hcontra
        have hle : g.timestamp ≤ f.timestamp :=
          hmax g (List.mem_cons_self g gs) ⟨u, hu, huk⟩
        have hge : f.timestamp ≤ g.timestamp := by
          rcases List.pairwise_cons.mp hsorted with ⟨hall, _⟩
          exact hall f hfin
        have heq : f.timestamp = g.timestamp := le_antisymm hge hle
        simp only [List.map_cons, List.nodup_cons] at hts
        exact hts.1 (heq ▸ List.mem_map.mpr ⟨f, hfin, rfl⟩)
      rw [hgnone, Option.none_or]
      refine ih (List.pairwise_cons.mp hsorted).2 ?_ hfin ?_ ?_
      · simpa using (List.nodup_cons.mp (by simpa using hts)).2
      · intro g' hg' hex
        exact hmax g' (List.mem_cons_of_mem g hg') hex
      · intro g' hg'
        exact hkeys g' (List.mem_cons_of_mem g hg')

theorem sortBackupFiles_perm (entries : List BackupFileEntry) :
    (sortBackupFiles entries).Perm entries :=
  List.perm_insertionSort newestFirst entries

theorem sortBackupFiles_sorted (entries : List BackupFileEntry) :
    List.Pairwise (fun a b => b.timestamp ≤ a.timestamp) (sortBackupFiles entries) :=
  List.sorted_insertionSort newestFirst entries

/-- C1: the reconciled view of `getAllWalletsFromBackups` contains exactly one
record per distinct public key — its key list has no duplicates and its size
is the number of distinct public keys across all files — and the retained
record for each key carries the fields of (and provenance tag of) the
occurrence from the snapshot with the greatest timestamp among those
containing that key.  The hypotheses make "the snapshot with the greatest
timestamp" well defined: snapshot timestamps are pairwise distinct and keys
are unique within each snapshot. -/
theorem C1_reconciled_dedup_newest_wins (entries : List BackupFileEntry)
    (hts : (entries.map fun f => f.timestamp).Nodup)
    (hkeys : ∀ f ∈ entries, ((f.data.subWallets.map fun w => w.publicKey).Nodup)) :
    (((reconcileSubWallets entries).map fun w => w.publicKey).Nodup
      ∧ (reconcileSubWallets entries).length
          = ((entries.map fun f =>
              f.data.subWallets.map fun w => w.publicKey).flatten).toFinset.card)
    ∧ ∀ f ∈ entries, ∀ w ∈ f.data.subWallets,
        (∀ g ∈ entries, (∃ v ∈ g.data.subWallets, v.publicKey = w.publicKey) →
          g.timestamp ≤ f.timestamp) →
        tagSubWallet f w ∈ reconcileSubWallets entries := by
  have hperm := sortBackupFiles_perm entries
  have hrec : reconcileSubWallets entries
      = keepFirstBy (fun w => w.publicKey) (collectSubWallets (sortBackupFiles entries)) := by
    rw [reconcileSubWallets, jsUniqueBy_eq_keepFirstBy]
  have hmapkeys : (collectSubWallets (sortBackupFiles entries)).map (fun w => w.publicKey)
      = ((sortBackupFiles entries).map fun f =>
          (f.data.subWallets.map fun w => w.publicKey)).flatten := by
    rw [collectSubWallets, List.map_flatten, List.map_map]
    have hfun : ((List.map fun w : TaggedSubWallet => w.publicKey)
          ∘ fun f : BackupFileEntry => List.map (tagSubWallet f) f.data.subWallets)
        = fun f : BackupFileEntry =>
            List.map (fun w : SubWallet => w.publicKey) f.data.subWallets := by
      funext f
      rw [Function.comp_apply, List.map_map]
      rfl
    rw [hfun]
  refine ⟨⟨?_, ?_⟩, ?_⟩
  · rw [hrec]
    exact map_key_keepFirstBy_nodup _ _
  · rw [hrec, length_keepFirstBy, hmapkeys]
    exact congrArg Finset.card (List.toFinset_eq_of_perm _ _
      ((hperm.map fun f => f.data.subWallets.map fun w => w.publicKey).flatten))
  · intro f hf w hw hmax
    have hndsorted : ((sortBackupFiles entries).map fun e => e.timestamp).Nodup :=
      ((hperm.map fun e => e.timestamp).symm).nodup hts
    have hfind := find?_collectSubWallets (sortBackupFiles entries) f w w.publicKey
      (sortBackupFiles_sorted entries) hndsorted
      (hperm.mem_iff.mpr hf) hw rfl
      (fun g hg hex => hmax g (hperm.mem_iff.mp hg) hex)
      (fun g hg => hkeys g (hperm.mem_iff.mp hg))
    rw [hrec]
    exact find?_keepFirstBy_mem (fun v : TaggedSubWallet => v.publicKey) hfind

/-- Concrete backup metadata used by the C1 witness entries. -/
def c1Metadata : BackupMetadata :=
  { version := "1.0.0", createdBy := "solana-volume-bot", totalWallets := 2 }

def c1DupNew : SubWallet :=
  { publicKey := "PKdup", privateKey := "sk-new", createdAt := 5, index := 0 }

def c1Solo : SubWallet :=
  { publicKey := "PKsolo", privateKey := "sk-solo", createdAt := 6, index := 1 }

def c1DupOld : SubWallet :=
  { publicKey := "PKdup", privateKey := "sk-old", createdAt := 1, index := 0 }

def c1BackupNew : WalletBackup :=
  { timestamp := 200, mainWallet := none,
    subWallets := [c1DupNew, c1Solo], metadata := c1Metadata }

def c1BackupOld : WalletBackup :=
  { timestamp := 100, mainWallet := none,
    subWallets := [c1DupOld], metadata := c1Metadata }

def c1EntryNew : BackupFileEntry :=
  { filename := "wallets-200.json", timestamp := 200, data := c1BackupNew }

def c1EntryOld : BackupFileEntry :=
  { filename := "wallets-100.json", timestamp := 100, data := c1BackupOld }

/-- Witness for C1 at two concrete snapshots sharing the key `PKdup`. -/
theorem C1_reconciled_dedup_newest_wins_witness :
    (((reconcileSubWallets [c1EntryNew, c1EntryOld]).map fun w => w.publicKey).Nodup
      ∧ (reconcileSubWallets [c1EntryNew, c1EntryOld]).length
          = (([c1EntryNew, c1EntryOld].map fun f =>
              f.data.subWallets.map fun w => w.publicKey).flatten).toFinset.card)
    ∧ ∀ f ∈ [c1EntryNew, c1EntryOld], ∀ w ∈ f.data.subWallets,
        (∀ g ∈ [c1EntryNew, c1EntryOld],
          (∃ v ∈ g.data.subWallets, v.publicKey = w.publicKey) →
          g.timestamp ≤ f.timestamp) →
        tagSubWallet f w ∈ reconcileSubWallets [c1EntryNew, c1EntryOld] :=
  C1_reconciled_dedup_newest_wins [c1EntryNew, c1EntryOld]
    (by simp +decide [c1EntryNew, c1EntryOld, c1BackupNew, c1BackupOld])
    (by
      intro f hf
      rcases List.mem_cons.mp hf with rfl | hf2
      · simp +decide [c1EntryNew, c1BackupNew, c1DupNew, c1Solo]
      · rcases List.mem_cons.mp hf2 with rfl | hf3
        · simp +decide [c1EntryOld, c1BackupOld, c1DupOld]
        · simp at hf3)

/-! ## Normalization lemmas (towards C10) -/

theorem normalizeBackupFormat_mainWallet_isSome (raw : RawBackup) (now : Int) :
    ((normalizeBackupFormat raw now).mainWallet).isSome = true := by
  rw [normalizeBackupFormat]
  split
  · rename_i h
    simp only [Bool.and_eq_true] at h
    cases hm : raw.mainWallet with
    | none => rw [hm] at h; simp at h
    | some m => simp [hm]
  · cases raw.mainWallet <;> simp

theorem normalizeBackupFormat_of_no_mainWallet (raw : RawBackup) (now : Int)
    (h : raw.mainWallet = none) :
    (normalizeBackupFormat raw now).mainWallet
      = some (placeholderMainWallet (rawTimestampOf raw now)) := by
  rw [normalizeBackupFormat, if_neg (by simp [h])]
  simp [h]

theorem placeholder_in_reconciled_mains (store : BackupStore) (now : Int)
    (h : ∃ sf ∈ store, sf.raw.mainWallet = none) :
    placeholderPublicKey ∈ ((getAllWalletsFromBackups store now).mainWallets.map
      fun m => m.publicKey) := by
  rcases h with ⟨sf, hsf, hnone⟩
  have he : parsedEntryOf sf now ∈ sortBackupFiles (parsedEntries store now) :=
    (sortBackupFiles_perm _).mem_iff.mpr (List.mem_map.mpr ⟨sf, hsf, rfl⟩)
  have hcol : tagMainWallet (parsedEntryOf sf now)
        (placeholderMainWallet (rawTimestampOf sf.raw now))
      ∈ collectMainWallets (sortBackupFiles (parsedEntries store now)) := by
    rw [collectMainWallets]
    refine List.mem_filterMap.mpr ⟨_, he, ?_⟩
    show ((parsedEntryOf sf now).data.mainWallet).map _ = _
    rw [show (parsedEntryOf sf now).data = normalizeBackupFormat sf.raw now from rfl,
      normalizeBackupFormat_of_no_mainWallet sf.raw now hnone]
    rfl
  have hkey := key_mem_keepFirstBy (fun m : TaggedMainWallet => m.publicKey) hcol
  have hmains : (getAllWalletsFromBackups store now).mainWallets
      = keepFirstBy (fun m : TaggedMainWallet => m.publicKey)
          (collectMainWallets (sortBackupFiles (parsedEntries store now))) := by
    show reconcileMainWallets (parsedEntries store now) = _
    rw [reconcileMainWallets, jsUniqueBy_eq_keepFirstBy]
  rw [hmains]
  exact hkey

/-- C10: every normalized backup has a defined main wallet; the snapshots
written by `updateBackupWithNewWallets` store no main wallet, so reading them
back injects the fixed placeholder identity, which can then appear in the
reconciled main-wallet set of `getAllWalletsFromBackups`. -/
theorem C10_placeholder_main_wallet :
    (∀ raw now, ((normalizeBackupFormat raw now).mainWallet).isSome = true)
    ∧ (∀ store now ex new, ∃ fn raw,
        (updateBackupWithNewWallets store now true ex new).2
            = store ++ [{ filename := fn, raw := raw }]
          ∧ raw.mainWallet = none
          ∧ ∀ n2, (normalizeBackupFormat raw n2).mainWallet
              = some (placeholderMainWallet (rawTimestampOf raw n2)))
    ∧ ∀ store now, (∃ sf ∈ store, sf.raw.mainWallet = none) →
        placeholderPublicKey ∈ ((getAllWalletsFromBackups store now).mainWallets.map
          fun m => m.publicKey) := by
  refine ⟨normalizeBackupFormat_mainWallet_isSome, ?_, placeholder_in_reconciled_mains⟩
  intro store now ex new
  refine ⟨"wallets-" ++ toString now ++ ".json", _, rfl, rfl, ?_⟩
  intro n2
  exact normalizeBackupFormat_of_no_mainWallet _ n2 rfl

def c10Metadata : BackupMetadata :=
  { version := "1.0.0", createdBy := "solana-volume-bot", totalWallets := 0 }

def c10Raw : RawBackup :=
  { timestamp := some 5, createdAt := none, mainWallet := none,
    subWallets := [], metadata := some c10Metadata, version := none }

/-- A stored snapshot with no main wallet, as written by
`updateBackupWithNewWallets`. -/
def c10File : StoredFile :=
  { filename := "wallets-5.json", raw := c10Raw }

/-- Witness for C10: on a store holding one main-wallet-less snapshot, the
placeholder public key shows up in the reconciled main-wallet set. -/
theorem C10_placeholder_main_wallet_witness :
    placeholderPublicKey ∈ ((getAllWalletsFromBackups [c10File] 777).mainWallets.map
      fun m => m.publicKey) :=
  C10_placeholder_main_wallet.2.2 [c10File] 777 ⟨c10File, by simp, rfl⟩

/-! ## WalletManager: createSubWallets (C2, C6, C7)

State-passing embedding of `WalletManager.createSubWallets`
(`BackupManager.ts` lines 254-315): the backup store is threaded explicitly,
`Keypair.generate()` is an oracle `gen`, `Date.now()` is `now`, and the
snapshot write outcome is `writeOk`.
-/

/-- Mirror of the `WalletInfo` interface. -/
structure WalletInfo where
  publicKey : String
  privateKey : String
  balance : Rat
  createdAt : Int
  backupFile : Option String
  index : Option Nat
deriving DecidableEq, Repr

/-- The mapping of lines 262-271 (existing reconciled wallets are returned
with `balance: 0` and their provenance). -/
def walletInfoOfTagged (w : TaggedSubWallet) : WalletInfo :=
  { publicKey := w.publicKey, privateKey := w.privateKey, balance := 0,
    createdAt := w.createdAt, backupFile := some w.backupFile, index := some w.index }

/-- The mapping of lines 300-306 (the mint branch returns wallets without a
`backupFile` field). -/
def walletInfoOfSub (w : SubWallet) : WalletInfo :=
  { publicKey := w.publicKey, privateKey := w.privateKey, balance := 0,
    createdAt := w.createdAt, backupFile := none, index := some w.index }

/-- The source spreads the reconciled (tagged) wallets into the new snapshot;
only these four fields are consumed downstream, so the extra provenance
fields are dropped here. -/
def subWalletOfTagged (w : TaggedSubWallet) : SubWallet :=
  { publicKey := w.publicKey, privateKey := w.privateKey,
    createdAt := w.createdAt, index := w.index }

/-- The mint loop of lines 280-289: `walletsToCreate` fresh keypairs with
`createdAt = Date.now()` and `index = currentSubWalletCount + i`. -/
def mintedWallets (gen : Nat → String × String) (now : Int) (base shortfall : Nat) :
    List SubWallet :=
  (List.range shortfall).map fun i =>
    { publicKey := (gen i).1, privateKey := (gen i).2,
      createdAt := now, index := base + i }

structure CreateSubWalletsResult where
  success : Bool
  wallets : Option (List WalletInfo)
  error : Option String
deriving DecidableEq, Repr

/-- Embeds `WalletManager.createSubWallets` (lines 254-315). -/
def createSubWallets (store : BackupStore) (now : Int) (writeOk : Bool)
    (gen : Nat → String × String) (count : Nat) :
    CreateSubWalletsResult × BackupStore :=
  let existingWallets := getAllWalletsFromBackups store now
  let currentSubWalletCount := existingWallets.subWallets.length
  if count ≤ currentSubWalletCount then
    let selectedWallets := (existingWallets.subWallets.take count).map walletInfoOfTagged
    ({ success := true, wallets := some selectedWallets, error := none }, store)
  else
    let newWallets := mintedWallets gen now currentSubWalletCount
      (count - currentSubWalletCount)
    match updateBackupWithNewWallets store now writeOk
        (existingWallets.subWallets.map subWalletOfTagged) newWallets with
    | (Except.error e, store2) =>
      ({ success := false, wallets := none, error := some e }, store2)
    | (Except.ok _, store2) =>
      let allSubWallets :=
        (((existingWallets.subWallets.map subWalletOfTagged) ++ newWallets).take count).map
          walletInfoOfSub
      ({ success := true, wallets := some allSubWallets, error := none }, store2)

/-- C2: when minting is required but the snapshot append fails,
`createSubWallets` returns `success = false` with no wallets, and the
persisted store is unchanged — minted identities are discarded. -/
theorem C2_failed_append_returns_no_wallets (store : BackupStore) (now : Int)
    (gen : Nat → String × String) (count : Nat)
    (hshort : (getAllWalletsFromBackups store now).subWallets.length < count) :
    createSubWallets store now false gen count
      = ({ success := false, wallets := none,
           error := some ("Failed to create wallet backup") }, store) := by
  rw [createSubWallets]
  rw [if_neg (by omega)]
  rfl

/-- Witness for C2: an empty store forces minting; the failed append yields
`success = false`, no wallets, and the store stays empty. -/
theorem C2_failed_append_returns_no_wallets_witness :
    createSubWallets [] 42 false (fun _ => ("newPk", "newSk")) 1
      = ({ success := false, wallets := none,
           error := some ("Failed to create wallet backup") }, []) :=
  C2_failed_append_returns_no_wallets [] 42 (fun _ => ("newPk", "newSk")) 1 (by decide)

/-- The snapshot file appended by a successful mint: name and record as
written by `createBackup` with no main wallet. -/
def mintSnapshotFile (now : Int) (subs : List SubWallet) : StoredFile :=
  { filename := "wallets-" ++ toString now ++ ".json",
    raw := backupRawOf now none subs }

/-- C6: with a shortfall, `createSubWallets` mints exactly
`count - existing.length` identities with slot `existing.length + i`,
persists one new snapshot holding the full existing set plus the minted
ones, and returns exactly `count` identities, existing first.  The
auxiliary equalities `hex`, `hE`, `hminted` name the reconciled existing
set, its size, and the minted batch. -/
theorem C6_mints_shortfall_and_persists_full_set (store : BackupStore) (now : Int)
    (gen : Nat → String × String) (count : Nat) (ex : List TaggedSubWallet)
    (E : Nat) (minted : List SubWallet)
    (hex : ex = (getAllWalletsFromBackups store now).subWallets)
    (hE : E = ex.length)
    (hminted : minted = mintedWallets gen now E (count - E))
    (hshort : E < count) :
    minted.length = count - E
    ∧ (∀ i, ∀ h : i < minted.length, (minted.get ⟨i, h⟩).index = E + i)
    ∧ (createSubWallets store now true gen count).1.success = true
    ∧ (createSubWallets store now true gen count).1.wallets
        = some (((ex.map subWalletOfTagged) ++ minted).map walletInfoOfSub)
    ∧ (((ex.map subWalletOfTagged) ++ minted).map walletInfoOfSub).length = count
    ∧ (createSubWallets store now true gen count).2
        = store ++ [mintSnapshotFile now ((ex.map subWalletOfTagged) ++ minted)] := by
  have hlen : minted.length = count - E := by
    rw [hminted, mintedWallets, List.length_map, List.length_range]
  have hlenfull : (((ex.map subWalletOfTagged) ++ minted).map walletInfoOfSub).length
      = count := by
    rw [List.length_map, List.length_append, List.length_map, hlen, ← hE]
    omega
  have htake : ((ex.map subWalletOfTagged) ++ minted).take count
      = (ex.map subWalletOfTagged) ++ minted := by
    apply List.take_of_length_le
    rw [List.length_append, List.length_map, hlen, ← hE]
    omega
  have hbranch : createSubWallets store now true gen count
      = ({ success := true,
           wallets := some ((((ex.map subWalletOfTagged) ++ minted).take count).map
              walletInfoOfSub),
           error := none },
         store ++ [mintSnapshotFile now ((ex.map subWalletOfTagged) ++ minted)]) := by
    rw [createSubWallets, ← hex, ← hE, if_neg (by omega), ← hminted]
    rfl
  refine ⟨hlen, ?_, ?_, ?_, hlenfull, ?_⟩
  · intro i h
    subst hminted
    simp [mintedWallets, List.get_eq_getElem]
  · rw [hbranch]
  · rw [hbranch]
    simp only [htake]
  · rw [hbranch]

def c6Metadata : BackupMetadata :=
  { version := "1.0.0", createdBy := "solana-volume-bot", totalWallets := 1 }

def c6RawWallet : RawSubWallet :=
  { publicKey := "existingPk", privateKey := "existingSk",
    createdAt := some 3, index := some 0 }

def c6Raw : RawBackup :=
  { timestamp := some 10, createdAt := none, mainWallet := none,
    subWallets := [c6RawWallet], metadata := some c6Metadata, version := none }

def c6File : StoredFile :=
  { filename := "wallets-10.json", raw := c6Raw }

def c6Gen : Nat → String × String := fun i => ("mintPk" ++ toString i, "mintSk")

/-- Witness for C6: one existing reconciled wallet, `count = 2`. -/
theorem C6_mints_shortfall_and_persists_full_set_witness :
    let ex := (getAllWalletsFromBackups [c6File] 99).subWallets
    let minted := mintedWallets c6Gen 99 ex.length (2 - ex.length)
    minted.length = 2 - ex.length
    ∧ (∀ i, ∀ h : i < minted.length, (minted.get ⟨i, h⟩).index = ex.length + i)
    ∧ (createSubWallets [c6File] 99 true c6Gen 2).1.success = true
    ∧ (createSubWallets [c6File] 99 true c6Gen 2).1.wallets
        = some (((ex.map subWalletOfTagged) ++ minted).map walletInfoOfSub)
    ∧ (((ex.map subWalletOfTagged) ++ minted).map walletInfoOfSub).length = 2
    ∧ (createSubWallets [c6File] 99 true c6Gen 2).2
        = [c6File] ++ [mintSnapshotFile 99 ((ex.map subWalletOfTagged) ++ minted)] :=
  C6_mints_shortfall_and_persists_full_set [c6File] 99 c6Gen 2
    (getAllWalletsFromBackups [c6File] 99).subWallets
    (getAllWalletsFromBackups [c6File] 99).subWallets.length
    (mintedWallets c6Gen 99 (getAllWalletsFromBackups [c6File] 99).subWallets.length
      (2 - (getAllWalletsFromBackups [c6File] 99).subWallets.length))
    rfl rfl rfl (by decide)

/-! ## Now-independence of reconciliation (towards C7) -/

theorem rawTimestampOf_now_independent (raw : RawBackup)
    (h : truthyInt raw.timestamp = true) (n1 n2 : Int) :
    rawTimestampOf raw n1 = rawTimestampOf raw n2 := by
  rw [rawTimestampOf, rawTimestampOf, h]
  simp

theorem normalizeBackupFormat_now_independent (raw : RawBackup)
    (h : truthyInt raw.timestamp = true) (n1 n2 : Int) :
    normalizeBackupFormat raw n1 = normalizeBackupFormat raw n2 := by
  rw [normalizeBackupFormat, normalizeBackupFormat,
    rawTimestampOf_now_independent raw h n1 n2]

theorem getAllWalletsFromBackups_now_independent (store : BackupStore)
    (h : ∀ sf ∈ store, truthyInt sf.raw.timestamp = true) (n1 n2 : Int) :
    getAllWalletsFromBackups store n1 = getAllWalletsFromBackups store n2 := by
  have hp : parsedEntries store n1 = parsedEntries store n2 := by
    rw [parsedEntries, parsedEntries]
    refine List.map_congr_left ?_
    intro sf hsf
    rw [parsedEntryOf, parsedEntryOf,
      normalizeBackupFormat_now_independent sf.raw (h sf hsf) n1 n2]
  rw [getAllWalletsFromBackups, getAllWalletsFromBackups, hp]

/-- C7: when the reconciled set already holds at least `count` sub-wallets,
`createSubWallets` leaves the store untouched, and calling it twice (with no
other mutation in between — different clocks, keypair oracles and write
outcomes are allowed since neither call uses them on this path) returns the
same sequence both times; in particular the second call appends no snapshot.
Every program-written snapshot has a nonzero timestamp (`htruthy`), which
makes reconciliation independent of the reading clock. -/
theorem C7_idempotent_when_enough (store : BackupStore) (n1 n2 : Int)
    (w1 w2 : Bool) (g1 g2 : Nat → String × String) (count : Nat)
    (htruthy : ∀ sf ∈ store, truthyInt sf.raw.timestamp = true)
    (henough : count ≤ (getAllWalletsFromBackups store n1).subWallets.length) :
    (createSubWallets store n1 w1 g1 count).2 = store
    ∧ (createSubWallets (createSubWallets store n1 w1 g1 count).2 n2 w2 g2 count).2
        = store
    ∧ (createSubWallets (createSubWallets store n1 w1 g1 count).2 n2 w2 g2 count).1
        = (createSubWallets store n1 w1 g1 count).1
    ∧ (createSubWallets store n1 w1 g1 count).1.success = true
    ∧ (createSubWallets store n1 w1 g1 count).1.wallets
        = some (((getAllWalletsFromBackups store n1).subWallets.take count).map
            walletInfoOfTagged) := by
  have h1 : createSubWallets store n1 w1 g1 count
      = ({ success := true,
           wallets := some (((getAllWalletsFromBackups store n1).subWallets.take count).map
              walletInfoOfTagged),
           error := none }, store) := by
    rw [createSubWallets, if_pos henough]
  have hsame : getAllWalletsFromBackups store n2 = getAllWalletsFromBackups store n1 :=
    getAllWalletsFromBackups_now_independent store htruthy n2 n1
  have h2 : createSubWallets store n2 w2 g2 count
      = ({ success := true,
           wallets := some (((getAllWalletsFromBackups store n1).subWallets.take count).map
              walletInfoOfTagged),
           error := none }, store) := by
    rw [createSubWallets, hsame, if_pos henough]
  refine ⟨?_, ?_, ?_, ?_, ?_⟩
  · rw [h1]
  · rw [h1, h2]
  · rw [h1, h2]
  · rw [h1]
  · rw [h1]

/-- Witness for C7 on a store already holding one reconciled sub-wallet and
`count = 1`. -/
theorem C7_idempotent_when_enough_witness :
    (createSubWallets [c6File] 50 true c6Gen 1).2 = [c6File]
    ∧ (createSubWallets (createSubWallets [c6File] 50 true c6Gen 1).2 60 false c6Gen 1).2
        = [c6File]
    ∧ (createSubWallets (createSubWallets [c6File] 50 true c6Gen 1).2 60 false c6Gen 1).1
        = (createSubWallets [c6File] 50 true c6Gen 1).1
    ∧ (createSubWallets [c6File] 50 true c6Gen 1).1.success = true
    ∧ (createSubWallets [c6File] 50 true c6Gen 1).1.wallets
        = some (((getAllWalletsFromBackups [c6File] 50).subWallets.take 1).map
            walletInfoOfTagged) :=
  C7_idempotent_when_enough [c6File] 50 60 true false c6Gen c6Gen 1
    (by decide) (by decide)

/-! ## WalletManager: recoverAllFunds (C3, C4)

Embedding of `WalletManager.recoverAllFunds` (lines 419-542).  SOL amounts
are exact rationals; the source's literal `0.000001` (dust threshold and
reserved fee) is `1/1000000` and `LAMPORTS_PER_SOL` is `1000000000`.
-/

/-- Network-visible events of the recovery engine, in submission order. -/
inductive NetEvent
  | sellAttempt (pk : String)
  | balanceRead (pk : String)
  | transferSend (source : String) (lamports : Int)
deriving DecidableEq, Repr

/-- Oracles for the external collaborators of the recovery path: keypair
decoding (`bs58` + `Keypair.fromSecretKey`, a throw modelled as `false`),
balances re-read from the RPC connection, the Jupiter token liquidation
(`none` = no tokens / failure), and the blockhash-sign-send-confirm transfer
path (`error` = a thrown exception anywhere in it, before the transaction is
recorded). -/
structure ChainEnv where
  decodeMainOk : Bool
  decodeSubOk : String → Bool
  balance : String → Rat
  sell : String → Option (Rat × List String)
  transfer : String → Except String String

/-- Per-worker body of the recovery loop (lines 445-527).  The inner
try/catch around the token sale keeps sale failures from blocking the SOL
sweep; the outer per-worker catch turns any later throw into "log and
continue", retaining whatever was pushed before the throw. -/
def processWorker (env : ChainEnv) (token : Option String) (w : WalletInfo) :
    Rat × List String × List NetEvent :=
  if env.decodeSubOk w.publicKey then
    let sellOut : List String × List NetEvent :=
      match token with
      | none => ([], [])
      | some _ =>
        match env.sell w.publicKey with
        | some p => (p.2, [NetEvent.sellAttempt w.publicKey])
        | none => ([], [NetEvent.sellAttempt w.publicKey])
    let b := env.balance w.publicKey
    let events := sellOut.2 ++ [NetEvent.balanceRead w.publicKey]
    if 1/1000000 < b then
      let transferableAmount := b - 1/1000000
      let transferLamports : Int := ⌊transferableAmount * 1000000000⌋
      if 0 < transferLamports then
        match env.transfer w.publicKey with
        | Except.ok sig =>
          (transferableAmount, sellOut.1 ++ [sig],
            events ++ [NetEvent.transferSend w.publicKey transferLamports])
        | Except.error _ =>
          (0, sellOut.1, events ++ [NetEvent.transferSend w.publicKey transferLamports])
      else (0, sellOut.1, events)
    else (0, sellOut.1, events)
  else (0, [], [])

structure RecoverResult where
  success : Bool
  recoveredAmount : Option Rat
  transactions : Option (List String)
  error : Option String
deriving DecidableEq, Repr

/-- Embeds `WalletManager.recoverAllFunds` over the worker list produced by
`getAllWallets`.  The structural credential check (`!key || key.length < 50`)
and the keypair decode happen before any network call; afterwards every
worker is processed sequentially inside its own try/catch and the call
always reports success with the accumulated totals. -/
def recoverAllFunds (env : ChainEnv) (key : String) (token : Option String)
    (subWallets : List WalletInfo) : RecoverResult × List NetEvent :=
  if key.length < 50 then
    ({ success := false, recoveredAmount := none, transactions := none,
       error := some ("Invalid main wallet private key") }, [])
  else if env.decodeMainOk = false then
    ({ success := false, recoveredAmount := none, transactions := none,
       error := some ("Failed to decode main wallet private key") }, [])
  else
    let outcomes := subWallets.map fun w => processWorker env token w
    ({ success := true,
       recoveredAmount := some ((outcomes.map fun o => o.1).sum),
       transactions := some ((outcomes.map fun o => o.2.1).flatten),
       error := none },
     (outcomes.map fun o => o.2.2).flatten)

theorem recoverAllFunds_valid (env : ChainEnv) (key : String) (token : Option String)
    (ws : List WalletInfo) (hlen : 50 ≤ key.length) (hdec : env.decodeMainOk = true) :
    recoverAllFunds env key token ws
      = ({ success := true,
           recoveredAmount := some ((ws.map fun w => (processWorker env token w).1).sum),
           transactions := some ((ws.map fun w => (processWorker env token w).2.1).flatten),
           error := none },
         (ws.map fun w => (processWorker env token w).2.2).flatten) := by
  rw [recoverAllFunds, if_neg (by omega), if_neg (by simp [hdec])]
  simp only [List.map_map]
  rfl

/-- C3: one worker's thrown processing never aborts the batch — with a valid
owner credential the call reports success, and a worker whose keypair decode
throws contributes nothing while the other workers' recovered amounts and
transaction ids are retained exactly (the result equals the run without that
worker). -/
theorem C3_per_worker_failure_isolated (env : ChainEnv) (key : String)
    (token : Option String) (ws1 ws2 : List WalletInfo) (b : WalletInfo)
    (hlen : 50 ≤ key.length) (hdec : env.decodeMainOk = true)
    (hb : env.decodeSubOk b.publicKey = false) :
    (recoverAllFunds env key token (ws1 ++ b :: ws2)).1.success = true
    ∧ (recoverAllFunds env key token (ws1 ++ b :: ws2)).1.recoveredAmount
        = (recoverAllFunds env key token (ws1 ++ ws2)).1.recoveredAmount
    ∧ (recoverAllFunds env key token (ws1 ++ b :: ws2)).1.transactions
        = (recoverAllFunds env key token (ws1 ++ ws2)).1.transactions := by
  have hpb : processWorker env token b = (0, [], []) := by
    rw [processWorker.eq_def, if_neg (by simp [hb])]
  rw [recoverAllFunds_valid env key token _ hlen hdec,
    recoverAllFunds_valid env key token _ hlen hdec]
  refine ⟨rfl, ?_, ?_⟩
  · simp [hpb]
  · simp [hpb]

def c3WalletA : WalletInfo :=
  { publicKey := "walletA", privateKey := "skA", balance := 0, createdAt := 0,
    backupFile := none, index := some 0 }

def c3WalletB : WalletInfo :=
  { publicKey := "walletB", privateKey := "skB", balance := 0, createdAt := 0,
    backupFile := none, index := some 1 }

def c3WalletC : WalletInfo :=
  { publicKey := "walletC", privateKey := "skC", balance := 0, createdAt := 0,
    backupFile := none, index := some 2 }

/-- A structurally well-formed owner credential (50 or more characters). -/
def c3Key : String := "01234567890123456789012345678901234567890123456789"

/-- Environment for the C3 witness: worker B's keypair decode throws; A and C
hold 2 SOL and 1 SOL and their transfers confirm. -/
def c3Env : ChainEnv :=
  { decodeMainOk := true,
    decodeSubOk := fun pk => !(pk == "walletB"),
    balance := fun pk => if pk == "walletA" then 2 else if pk == "walletC" then 1 else 0,
    sell := fun _ => none,
    transfer := fun pk =>
      if pk == "walletA" then Except.ok ("sigA")
      else if pk == "walletC" then Except.ok ("sigC")
      else Except.error ("uncaught") }

/-- Witness for C3 on workers `[A(ok), B(throws), C(ok)]`: the batch reports
success and its totals equal those of the run over `[A, C]` alone. -/
theorem C3_per_worker_failure_isolated_witness :
    (recoverAllFunds c3Env c3Key none
        ([c3WalletA] ++ c3WalletB :: [c3WalletC])).1.success = true
    ∧ (recoverAllFunds c3Env c3Key none
          ([c3WalletA] ++ c3WalletB :: [c3WalletC])).1.recoveredAmount
        = (recoverAllFunds c3Env c3Key none ([c3WalletA] ++ [c3WalletC])).1.recoveredAmount
    ∧ (recoverAllFunds c3Env c3Key none
          ([c3WalletA] ++ c3WalletB :: [c3WalletC])).1.transactions
        = (recoverAllFunds c3Env c3Key none ([c3WalletA] ++ [c3WalletC])).1.transactions :=
  C3_per_worker_failure_isolated c3Env c3Key none [c3WalletA] [c3WalletC]
    c3WalletB (by decide) rfl (by decide)

theorem processWorker_amount_zero (env : ChainEnv) (token : Option String)
    (w : WalletInfo) (hz : env.balance w.publicKey ≤ 1/1000000) :
    (processWorker env token w).1 = 0 := by
  rw [processWorker.eq_def]
  by_cases hd : env.decodeSubOk w.publicKey
  · rw [if_pos hd]
    have hnb : ¬ (1/1000000 < env.balance w.publicKey) := not_lt.mpr hz
    cases token with
    | none => simp only [if_neg hnb]
    | some t =>
      cases env.sell w.publicKey with
      | none => simp only [if_neg hnb]
      | some p => simp only [if_neg hnb]
  · rw [if_neg hd]

/-- C4: a sweep over workers whose balances are all at or below the dust
threshold returns `success = true` with `recoveredAmount = 0`; the call
returns `success = false` exactly when the owner credential is structurally
invalid (too short, or its decode throws), and in that case the network
event trace is empty — the check precedes any network call. -/
theorem C4_zero_balance_success_and_credential_gate (env : ChainEnv) (key : String)
    (token : Option String) (ws : List WalletInfo)
    (hlen : 50 ≤ key.length) (hdec : env.decodeMainOk = true)
    (hz : ∀ w ∈ ws, env.balance w.publicKey ≤ 1/1000000) :
    ((recoverAllFunds env key token ws).1.success = true
      ∧ (recoverAllFunds env key token ws).1.recoveredAmount = some 0)
    ∧ (∀ env2 key2 token2 ws2,
        ((recoverAllFunds env2 key2 token2 ws2).1.success = false
          ↔ (key2.length < 50 ∨ env2.decodeMainOk = false)))
    ∧ (∀ env2 key2 token2 ws2, (key2.length < 50 ∨ env2.decodeMainOk = false) →
        (recoverAllFunds env2 key2 token2 ws2).2 = []) := by
  refine ⟨?_, ?_, ?_⟩
  · rw [recoverAllFunds_valid env key token ws hlen hdec]
    refine ⟨rfl, ?_⟩
    have hzero : ((ws.map fun w => (processWorker env token w).1).sum) = 0 := by
      refine List.sum_eq_zero ?_
      intro x hx
      rcases List.mem_map.mp hx with ⟨w, hw, rfl⟩
      exact processWorker_amount_zero env token w (hz w hw)
    rw [hzero]
  · intro env2 key2 token2 ws2
    by_cases h1 : key2.length < 50
    · rw [recoverAllFunds, if_pos h1]
      simp [h1]
    · by_cases h2 : env2.decodeMainOk = false
      · rw [recoverAllFunds, if_neg h1, if_pos h2]
        simp [h2]
      · rw [recoverAllFunds, if_neg h1, if_neg h2]
        simp [h1, h2]
  · intro env2 key2 token2 ws2 h
    by_cases h1 : key2.length < 50
    · rw [recoverAllFunds, if_pos h1]
    · rcases h with h | h2
      · exact absurd h h1
      · rw [recoverAllFunds, if_neg h1, if_pos h2]

/-- Environment for the C4 witness: all balances zero, every transfer would
throw if it were ever attempted. -/
def c4Env : ChainEnv :=
  { decodeMainOk := true,
    decodeSubOk := fun _ => true,
    balance := fun _ => 0,
    sell := fun _ => none,
    transfer := fun _ => Except.error ("never reached") }

/-- Witness for C4 at a concrete zero-balance worker set. -/
theorem C4_zero_balance_success_and_credential_gate_witness :
    ((recoverAllFunds c4Env c3Key none [c3WalletA, c3WalletB]).1.success = true
      ∧ (recoverAllFunds c4Env c3Key none [c3WalletA, c3WalletB]).1.recoveredAmount
          = some 0)
    ∧ (∀ env2 key2 token2 ws2,
        ((recoverAllFunds env2 key2 token2 ws2).1.success = false
          ↔ (key2.length < 50 ∨ env2.decodeMainOk = false)))
    ∧ (∀ env2 key2 token2 ws2, (key2.length < 50 ∨ env2.decodeMainOk = false) →
        (recoverAllFunds env2 key2 token2 ws2).2 = []) :=
  C4_zero_balance_success_and_credential_gate c4Env c3Key none [c3WalletA, c3WalletB]
    (by decide) rfl (by intro w hw; norm_num [c4Env])

/-! ## LicenseManager (towards C5) -/

/-- JavaScript `String.prototype.split('.')` over the character sequence:
always at least one segment, empty segments preserved. -/
def splitOnDot : List Char → List (List Char)
  | [] => [[]]
  | ch :: rest =>
    match splitOnDot rest with
    | [] => [[]]
    | seg :: segs =>
      if ch = '.' then [] :: seg :: segs else (ch :: seg) :: segs

/-- JavaScript `String.prototype.startsWith` over the character sequence. -/
def strStartsWith (s pre : String) : Bool :=
  pre.data.isPrefixOf s.data

/-- The decoded license payload; only its expiry enters control flow. -/
structure LicensePayload where
  exp : Int
deriving DecidableEq, Repr

structure LicenseValidationResult where
  valid : Bool
  error : Option String
  expiresAt : Option Int
deriving DecidableEq, Repr

/-- Embeds `LicenseManager.validateLicenseKey` (`LicenseManager.ts` lines
19-67).  `hmac` models `crypto.createHmac('sha256', SECRET_KEY)` with base64
digest; `parsePayload` models base64 decoding plus `JSON.parse` of the
payload, `none` being the thrown parse error caught at line 64; `now` is
`Date.now()`.  A missing second `split('.')` component is `undefined`,
falsy like the empty string, so both are folded into `""`. -/
def validateLicenseKey (hmac : String → String)
    (parsePayload : String → Option LicensePayload) (now : Int)
    (licenseKey : String) : LicenseValidationResult :=
  if ¬ strStartsWith licenseKey ("VB-") then
    { valid := false, error := some ("Invalid license key format"), expiresAt := none }
  else
    let keyPart := licenseKey.drop 3
    let parts := (splitOnDot keyPart.data).map String.mk
    let payloadB64 := parts.getD 0 ("")
    let signature := parts.getD 1 ("")
    if payloadB64 == "" || signature == "" then
      { valid := false, error := some ("Malformed license key"), expiresAt := none }
    else if signature != hmac payloadB64 then
      { valid := false, error := some ("Invalid license key signature"),
        expiresAt := none }
    else
      match parsePayload payloadB64 with
      | none =>
        { valid := false, error := some ("Failed to validate license key"),
          expiresAt := none }
      | some p =>
        if p.exp < now then
          { valid := false, error := some ("License key expired"), expiresAt := none }
        else
          { valid := true, error := none, expiresAt := some p.exp }

/-! ## TradingBot state and orchestration (C5, C8, C9) -/

/-- Mirror of the `TradingConfig` interface. -/
structure TradingConfig where
  tokenAddress : String
  mainWalletPrivateKey : String
  numberOfSubWallets : Nat
  buyAmount : Rat
  sessionDuration : Nat
  licenseKey : String
deriving DecidableEq, Repr

/-- Mirror of the `TradingStats` interface. -/
structure TradingStats where
  cyclesCompleted : Nat
  totalVolume : Rat
  successRate : Rat
  totalFees : Rat
  uptime : Int
  startTime : Int
  lastCycleTime : Int
  activeWallets : Nat
deriving DecidableEq, Repr

/-- The all-zero stats installed by the constructor and `resetStats()`. -/
def emptyStats : TradingStats :=
  { cyclesCompleted := 0, totalVolume := 0, successRate := 0, totalFees := 0,
    uptime := 0, startTime := 0, lastCycleTime := 0, activeWallets := 0 }

/-- A sub-wallet as held in `this.subWallets` of the bot. -/
structure BotWallet where
  publicKey : String
  privateKey : String
  balance : Rat
deriving DecidableEq, Repr

/-- The orchestrator's mutable fields.  `intervalId` and `sessionTimeoutId`
are never assigned a timer anywhere in the source (the interval and session
timeout are commented out), but `stop()` still clears them. -/
structure BotState where
  isRunning : Bool
  config : Option TradingConfig
  stats : TradingStats
  subWallets : List BotWallet
  intervalId : Option Nat
  sessionTimeoutId : Option Nat
deriving DecidableEq, Repr

/-- Effectful actions the orchestrator triggers, in order.  Log and
stats-update emissions are notifications to observers and stay outside the
model. -/
inductive BotEvent
  | distributeCall (addresses : List String) (amountPerWallet : Rat)
  | cleanupScheduled
deriving DecidableEq, Repr

structure StopResult where
  success : Bool
  error : Option String
deriving DecidableEq, Repr

/-- Embeds `TradingBot.stop` (lines 205-237): forces the running flag off,
clears both timers, reports success, and — whenever a config is present —
fires `cleanupFundsInBackground()` without awaiting it (the
`cleanupScheduled` event: per-wallet token sales now and `recoverAllFunds`
five seconds later). -/
def stop (st : BotState) : StopResult × BotState × List BotEvent :=
  let st2 := { st with isRunning := false, intervalId := none, sessionTimeoutId := none }
  ({ success := true, error := none }, st2,
    if st.config.isSome then [BotEvent.cleanupScheduled] else [])

def c9Config : TradingConfig :=
  { tokenAddress := "tokenMint", mainWalletPrivateKey := "mainKey",
    numberOfSubWallets := 1, buyAmount := 1, sessionDuration := 5,
    licenseKey := "VB-payload.sig" }

/-- A reachable not-running state: the bot was started and stopped once, so
`isRunning` is false but the config is still set (`stop()` never clears it). -/
def c9StoppedState : BotState :=
  { isRunning := false, config := some c9Config, stats := emptyStats,
    subWallets := [], intervalId := none, sessionTimeoutId := none }

/-- Counterexample to C9 as stated: calling `stop()` on a not-running state
that still holds a config does trigger further side effects — it schedules
the background token-sale and fund-recovery cleanup. -/
theorem C9_stop_not_running_counterexample :
    c9StoppedState.isRunning = false ∧ (stop c9StoppedState).2.2 ≠ [] := by
  refine ⟨rfl, ?_⟩
  decide

/-- C9 amended: calling `stop()` when the bot is not running always returns
success and leaves the state unchanged (the flag is already false, and the
timers — never set anywhere in the source — are already clear); but it
triggers no further side effects only when no config is present: a config
left over from a previous run makes `stop()` schedule the background
unwind-and-recovery cleanup even though the bot was not running. -/
theorem C9_stop_when_not_running (st : BotState) (hrun : st.isRunning = false)
    (hi : st.intervalId = none) (hs : st.sessionTimeoutId = none) :
    (stop st).1 = { success := true, error := none }
    ∧ (stop st).2.1 = st
    ∧ ((stop st).2.2 = [] ↔ st.config = none) := by
  obtain ⟨r, c, stt, w, i, s⟩ := st
  simp only at hrun hi hs
  subst hrun hi hs
  refine ⟨rfl, rfl, ?_⟩
  cases c <;> simp [stop]

/-- A never-started state: no config, nothing to clean up. -/
def c9IdleState : BotState :=
  { isRunning := false, config := none, stats := emptyStats,
    subWallets := [], intervalId := none, sessionTimeoutId := none }

/-- Witness for the amended C9 at the idle state. -/
theorem C9_stop_when_not_running_witness :
    (stop c9IdleState).1 = { success := true, error := none }
    ∧ (stop c9IdleState).2.1 = c9IdleState
    ∧ ((stop c9IdleState).2.2 = [] ↔ c9IdleState.config = none) :=
  C9_stop_when_not_running c9IdleState rfl rfl rfl

/-! ## One trading-cycle iteration (C8) -/

/-- One iteration of the continuous loop in `TradingBot.executeTradingCycle`
(lines 394-500) with the bot running throughout: Phase 1 pushes a buy result
per wallet in order, Phase 2 a sell result per wallet in order, then lines
465-481 count the wallets whose buy and sell both succeeded and overwrite
the stats.  `buyOutcome` / `sellOutcome` are the per-wallet outcomes of
`executeBuy` / `executeSell` in this iteration; `now` is `Date.now()`. -/
def executeCycleIteration (buyOutcome sellOutcome : BotWallet → Bool)
    (ws : List BotWallet) (prev : TradingStats) (now : Int) : TradingStats :=
  let buyResults := ws.map buyOutcome
  let sellResults := ws.map sellOutcome
  let successfulTrades := (List.range ws.length).countP fun i =>
    buyResults.getD i false && sellResults.getD i false
  { prev with
    cyclesCompleted := prev.cyclesCompleted + 1,
    successRate :=
      if 0 < ws.length then
        ((successfulTrades : Rat) / (ws.length : Rat)) * 100
      else 0,
    lastCycleTime := now,
    uptime := now - prev.startTime }

theorem countP_range_getD (buyOutcome sellOutcome : BotWallet → Bool)
    (ws : List BotWallet) :
    ((List.range ws.length).countP fun i =>
        (ws.map buyOutcome).getD i false && (ws.map sellOutcome).getD i false)
      = ws.countP fun w => buyOutcome w && sellOutcome w := by
  induction ws with
  | nil => rfl
  | cons w ws ih =>
    rw [List.length_cons, List.range_succ_eq_map, List.countP_cons, List.countP_cons,
      List.countP_map]
    have hcomp : (((fun i =>
          ((w :: ws).map buyOutcome).getD i false
            && ((w :: ws).map sellOutcome).getD i false) ∘ Nat.succ))
        = (fun i => (ws.map buyOutcome).getD i false
            && (ws.map sellOutcome).getD i false) := by
      funext i
      rfl
    rw [hcomp, ih]
    rfl

/-- C8: the success rate recorded after an iteration over a nonempty worker
set equals `100 ·` (number of workers whose Phase-A buy and Phase-B sell
both succeeded) `/ n`, computed from this iteration's outcomes alone — any
previous stats value yields the same rate — and the cycle counter
increments. -/
theorem C8_success_rate_recomputed (buyOutcome sellOutcome : BotWallet → Bool)
    (ws : List BotWallet) (prev : TradingStats) (now : Int) (hn : ws ≠ []) :
    (executeCycleIteration buyOutcome sellOutcome ws prev now).successRate
        = 100 * ((ws.countP fun w => buyOutcome w && sellOutcome w : Nat) : Rat)
            / (ws.length : Rat)
    ∧ (∀ prev2,
        (executeCycleIteration buyOutcome sellOutcome ws prev2 now).successRate
          = (executeCycleIteration buyOutcome sellOutcome ws prev now).successRate)
    ∧ (executeCycleIteration buyOutcome sellOutcome ws prev now).cyclesCompleted
        = prev.cyclesCompleted + 1 := by
  have hpos : 0 < ws.length := List.length_pos.mpr hn
  refine ⟨?_, fun prev2 => rfl, rfl⟩
  show (if 0 < ws.length then
      ((((List.range ws.length).countP fun i =>
          (ws.map buyOutcome).getD i false && (ws.map sellOutcome).getD i false : Nat) : Rat)
        / (ws.length : Rat)) * 100
    else 0) = _
  rw [if_pos hpos, countP_range_getD]
  rw [div_mul_eq_mul_div, mul_comm]

def c8WalletA : BotWallet := { publicKey := "w1", privateKey := "s1", balance := 0 }

def c8WalletB : BotWallet := { publicKey := "w2", privateKey := "s2", balance := 0 }

def c8WalletC : BotWallet := { publicKey := "w3", privateKey := "s3", balance := 0 }

/-- Phase outcomes for the C8 witness: every buy succeeds. -/
def c8Buy : BotWallet → Bool := fun _ => true

/-- Phase outcomes for the C8 witness: the sell of wallet `w3` fails. -/
def c8Sell : BotWallet → Bool := fun w => !(w.publicKey == "w3")

/-- Witness for C8: three workers, two with both phases succeeding, one
failing Phase B (the 2-of-3 ⇒ 66.7 % example). -/
theorem C8_success_rate_recomputed_witness :
    (executeCycleIteration c8Buy c8Sell [c8WalletA, c8WalletB, c8WalletC]
        emptyStats 1000).successRate
        = 100 * (([c8WalletA, c8WalletB, c8WalletC].countP
              fun w => c8Buy w && c8Sell w : Nat) : Rat)
            / (([c8WalletA, c8WalletB, c8WalletC] : List BotWallet).length : Rat)
    ∧ (∀ prev2,
        (executeCycleIteration c8Buy c8Sell [c8WalletA, c8WalletB, c8WalletC]
            prev2 1000).successRate
          = (executeCycleIteration c8Buy c8Sell [c8WalletA, c8WalletB, c8WalletC]
              emptyStats 1000).successRate)
    ∧ (executeCycleIteration c8Buy c8Sell [c8WalletA, c8WalletB, c8WalletC]
          emptyStats 1000).cyclesCompleted = emptyStats.cyclesCompleted + 1 :=
  C8_success_rate_recomputed c8Buy c8Sell [c8WalletA, c8WalletB, c8WalletC]
    emptyStats 1000 (by decide)

/-! ## TradingBot.start (C5) -/

structure StartResult where
  success : Bool
  error : Option String
deriving DecidableEq, Repr

/-- Outcome of `distributeToSubWallets` as consumed by `distributeFunds`. -/
structure DistributeOutcome where
  success : Bool
  fundedWallets : List String
deriving DecidableEq, Repr

/-- Oracles for the collaborators of `TradingBot.start`: the license HMAC
and payload parse, the main-keypair decode, the wallet set read from the
backup store, sub-wallet creation outcomes (`none` = failure), the fund
distribution result, and token-address validity. -/
structure StartOracles where
  hmac : String → String
  parsePayload : String → Option LicensePayload
  decodeMainOk : Bool
  allWallets : List BotWallet
  createSubWallets : Nat → Option (List BotWallet)
  distributeOutcome : DistributeOutcome
  tokenValid : Bool

/-- The wallet-provisioning phase of `start` (lines 103-167): if no wallets
exist, create the full target (failure is fatal, line 112 throws); otherwise
reuse all existing wallets, grow by the shortfall, and retry once more if
still short — growth failures are only logged. -/
def provisionSubWallets (o : StartOracles) (target : Nat) :
    Except String (List BotWallet) :=
  if o.allWallets.isEmpty then
    match o.createSubWallets target with
    | none => Except.error ("Failed to create sub-wallets")
    | some ws => Except.ok ws
  else
    let ws1 := o.allWallets
    let ws2 :=
      if ws1.length < target then
        match o.createSubWallets (target - ws1.length) with
        | some extra => ws1 ++ extra
        | none => ws1
      else ws1
    let ws3 :=
      if ws2.length ≠ target then
        (if ws2.length < target then
          match o.createSubWallets (target - ws2.length) with
          | some extra => ws2 ++ extra
          | none => ws2
        else ws2)
      else ws2
    Except.ok ws3

/-- Embeds `TradingBot.start` (lines 78-203): running check; license
validation (fatal when invalid); config install and stats reset; main-keypair
decode; wallet provisioning; fund distribution — the `distributeCall` event,
fatal unless at least one wallet was funded (line 365 throws); token
validation; then the running flag is set.  Any throw is caught at line 197,
which clears the running flag and returns the failure. -/
def start (o : StartOracles) (now : Int) (st : BotState) (cfg : TradingConfig) :
    StartResult × BotState × List BotEvent :=
  if st.isRunning then
    ({ success := false, error := some ("Bot is already running") }, st, [])
  else if (validateLicenseKey o.hmac o.parsePayload now cfg.licenseKey).valid = false
    then
    ({ success := false, error := some ("Invalid license") }, st, [])
  else
    let st1 := { st with config := some cfg, stats := { emptyStats with startTime := now } }
    if o.decodeMainOk = false then
      ({ success := false, error := some ("Failed to decode main wallet key") },
        { st1 with isRunning := false }, [])
    else
      match provisionSubWallets o cfg.numberOfSubWallets with
      | Except.error e =>
        ({ success := false, error := some e }, { st1 with isRunning := false }, [])
      | Except.ok ws =>
        let stats2 := { st1.stats with activeWallets := ws.length }
        let st2 := { st1 with subWallets := ws, stats := stats2 }
        let events := [BotEvent.distributeCall (ws.map fun w => w.publicKey)
          (cfg.buyAmount + 1/100000)]
        if o.distributeOutcome.success = false
            ∨ o.distributeOutcome.fundedWallets.length = 0 then
          ({ success := false, error := some ("Fund distribution failed") },
            { st2 with isRunning := false }, events)
        else if o.tokenValid = false then
          ({ success := false, error := some ("Invalid token address") },
            { st2 with isRunning := false }, events)
        else
          ({ success := true, error := none }, { st2 with isRunning := true }, events)

/-- C5: whenever the configured license key fails validation (bad format,
bad signature, or expired), `start` returns `success = false` and no
fund-distribution call is ever made for any worker — the effect trace is
empty, so `distributeFunds` / `distributeToSubWallets` is never reached. -/
theorem C5_invalid_license_never_funds (o : StartOracles) (now : Int)
    (st : BotState) (cfg : TradingConfig)
    (hlic : (validateLicenseKey o.hmac o.parsePayload now cfg.licenseKey).valid
      = false) :
    (start o now st cfg).1.success = false ∧ (start o now st cfg).2.2 = [] := by
  rw [start]
  by_cases hr : st.isRunning
  · rw [if_pos hr]
    exact ⟨rfl, rfl⟩
  · rw [if_neg hr, if_pos hlic]
    exact ⟨rfl, rfl⟩

/-- Oracles for the C5 witness: every stage after the license gate would
succeed (and would emit a `distributeCall`) if it were reached. -/
def c5Oracles : StartOracles :=
  { hmac := fun _ => "expectedSig",
    parsePayload := fun _ => some { exp := 1000000 },
    decodeMainOk := true,
    allWallets := [c8WalletA],
    createSubWallets := fun _ => some [c8WalletB],
    distributeOutcome := { success := true, fundedWallets := ["w1"] },
    tokenValid := true }

def c5Config : TradingConfig :=
  { tokenAddress := "tokenMint", mainWalletPrivateKey := "mainKey",
    numberOfSubWallets := 1, buyAmount := 1, sessionDuration := 5,
    licenseKey := "not-a-license" }

def c5State : BotState :=
  { isRunning := false, config := none, stats := emptyStats,
    subWallets := [], intervalId := none, sessionTimeoutId := none }

/-- Witness for C5: a key without the `VB-` prefix fails validation, start
fails, and the trace holds no distribution call. -/
theorem C5_invalid_license_never_funds_witness :
    (start c5Oracles 100 c5State c5Config).1.success = false
    ∧ (start c5Oracles 100 c5State c5Config).2.2 = [] :=
  C5_invalid_license_never_funds c5Oracles 100 c5State c5Config (by decide)

end VolumeBot
